import Mathlib

/-!
# Verification of the justiniano ingestion / chunking / retrieval pipeline

Shallow embedding of the Python sources under `backend-ml/`:

* `utils/io_helpers.py` and the identifier cache of `boe_ingestion/orchestrator.py`
  (newline-delimited files are modelled as their list of lines);
* `data_processing/chunker.py` (the legal-boundary regex is modelled character by
  character, including the positive lookahead that keeps the marker text);
* `boe_ingestion/services/api_client.py` (`fetch_summary_ids` over a JSON tree model;
  a `none` result models an uncaught Python exception such as `AttributeError` or
  `TypeError` escaping the function);
* `boe_ingestion/services/parsing_service.py` (`parse_legal_text` over a markup tree;
  the `malformed` constructor models input whose parsing raises, caught by the
  `except` clause);
* `boe_ingestion/orchestrator.py` (`ingest_boe_data`, with the external HTTP client
  and the parsing service abstracted as a deterministic `Source` oracle, per-run
  observations — fetches, skips — recorded as ghost fields);
* `rag_agent/service.py` (`RagService._get_context` and `RagService.chat_stream`,
  with the embedder, the vector store and the streamed LLM abstracted as oracles;
  the yielded stream is modelled as the list of its fragments).
-/

namespace Justiniano

/-! ## utils/io_helpers.py and the identifier cache

The cache file `processed_ids.txt` is newline-delimited; we model its content as
the list of its lines (`f.write(doc_id + '\n')` appends one line, `for line in f`
iterates lines). -/

/-- Python `str.strip()` whitespace (ASCII part: space, `\t`, `\n`, `\r`, `\x0b`, `\x0c`). -/
def pyStripWs (c : Char) : Bool :=
  c = ' ' ∨ c = '\t' ∨ c = '\n' ∨ c = '\r' ∨ c = '\x0b' ∨ c = '\x0c'

/-- Python `str.strip()`: drop leading and trailing whitespace. -/
def pyStrip (s : String) : String :=
  String.mk (((s.data.dropWhile pyStripWs).reverse.dropWhile pyStripWs).reverse)

/-- `save_processed_id`: append one identifier line to the cache file. -/
def save_processed_id (file : List String) (docId : String) : List String :=
  file ++ [docId]

/-- `load_processed_ids` from `orchestrator.py`: missing file gives the empty set,
otherwise `set(line.strip() for line in f if line.strip())`. -/
def load_processed_ids (file : Option (List String)) : Finset String :=
  match file with
  | none => ∅
  | some lines => ((lines.filter (fun l => pyStrip l ≠ "")).map pyStrip).toFinset

/-! ## data_processing/chunker.py

`LEGAL_BOUNDARY_REGEX = \n\s*(?=Artículo \d+\.|Disposición \w+|Anexo|CAPÍTULO [IVXLCDM]+\.|TÍTULO [IVXLCDM]+\.)`
compiled with `re.IGNORECASE`.  The split point consumes `\n\s*` and the lookahead
keeps the marker at the start of the next piece.  Character classes are modelled on
ASCII plus the Spanish letters that occur in the patterns (Python's `re` is
Unicode-aware in general; the restriction is irrelevant for the markers used). -/

/-- Whitespace characters of the regex class `\s` (ASCII part). -/
def pyWs (c : Char) : Bool :=
  c = ' ' ∨ c = '\t' ∨ c = '\n' ∨ c = '\r' ∨ c = '\x0b' ∨ c = '\x0c'

/-- Case folding for `re.IGNORECASE`, covering ASCII plus the accented letters
occurring in the patterns. -/
def toLowerEs (c : Char) : Char :=
  if c = 'Í' then 'í' else if c = 'Ó' then 'ó' else if c = 'Á' then 'á'
  else if c = 'É' then 'é' else if c = 'Ú' then 'ú' else if c = 'Ñ' then 'ñ'
  else c.toLower

def charIEq (a b : Char) : Bool := toLowerEs a = toLowerEs b

/-- `\w` word characters (ASCII plus Spanish letters). -/
def pyWordChar (c : Char) : Bool :=
  c.isAlphanum ∨ c = '_' ∨
    c ∈ ['á', 'é', 'í', 'ó', 'ú', 'ñ', 'ü', 'Á', 'É', 'Í', 'Ó', 'Ú', 'Ñ', 'Ü']

/-- `[IVXLCDM]` under `re.IGNORECASE`. -/
def romanChar (c : Char) : Bool := toLowerEs c ∈ ['i', 'v', 'x', 'l', 'c', 'd', 'm']

/-- Match a literal (case-insensitively), returning the rest of the input. -/
def matchLit : List Char → List Char → Option (List Char)
  | [], s => some s
  | _ :: _, [] => none
  | p :: ps, c :: cs => if charIEq p c then matchLit ps cs else none

def skipWhile (p : Char → Bool) : List Char → List Char
  | [] => []
  | c :: cs => if p c then skipWhile p cs else c :: cs

def countWhile (p : Char → Bool) : List Char → Nat
  | [] => 0
  | c :: cs => if p c then countWhile p cs + 1 else 0

/-- Continuation-style literal match. -/
def litThen (lit : String) (k : List Char → Bool) (s : List Char) : Bool :=
  match matchLit lit.data s with
  | some r => k r
  | none => false

/-- `p+` (greedy) followed by a continuation; none of our continuations can match a
character satisfying `p`, so greedy matching needs no backtracking. -/
def many1Then (p : Char → Bool) (k : List Char → Bool) (s : List Char) : Bool :=
  match s with
  | c :: cs => if p c then k (skipWhile p cs) else false
  | [] => false

def dotThen : List Char → Bool
  | '.' :: _ => true
  | _ => false

def anyRest : List Char → Bool := fun _ => true

/-- The lookahead `(?=Artículo \d+\.|Disposición \w+|Anexo|CAPÍTULO [IVXLCDM]+\.|TÍTULO [IVXLCDM]+\.)`. -/
def markerAt (s : List Char) : Bool :=
  litThen "Artículo " (many1Then Char.isDigit dotThen) s ∨
  litThen "Disposición " (many1Then pyWordChar anyRest) s ∨
  litThen "Anexo" anyRest s ∨
  litThen "CAPÍTULO " (many1Then romanChar dotThen) s ∨
  litThen "TÍTULO " (many1Then romanChar dotThen) s

/-- Length of a `\n\s*(?=marker)` match starting at the head, if any.  `\s*` is
greedy; since no marker alternative starts with a whitespace character, the
lookahead can only succeed after all consecutive whitespace is consumed, so no
backtracking is needed. -/
def boundaryLen (s : List Char) : Option Nat :=
  match s with
  | '\n' :: rest =>
    let w := countWhile pyWs rest
    if markerAt (rest.drop w) then some (1 + w) else none
  | _ => none

/-- Leftmost match of the boundary regex: start index and match length. -/
def findBoundary : List Char → Option (Nat × Nat)
  | [] => none
  | c :: cs =>
    match boundaryLen (c :: cs) with
    | some len => some (0, len)
    | none =>
      match findBoundary cs with
      | some (i, len) => some (i + 1, len)
      | none => none

/-- `re.split` with the boundary regex (fuelled; each match consumes at least the
newline, so `|s|` much fuel always suffices). -/
def splitAtBoundaries : Nat → List Char → List (List Char)
  | 0, cs => [cs]
  | fuel + 1, cs =>
    match findBoundary cs with
    | none => [cs]
    | some (i, len) => cs.take i :: splitAtBoundaries fuel (cs.drop (i + len))

/-- `LEGAL_BOUNDARY_REGEX.split(text)`. -/
def legalBoundarySplit (s : String) : List String :=
  (splitAtBoundaries s.data.length s.data).map (fun cs => String.mk cs)

/-- One output record of `process_document`. -/
structure ChunkRec where
  chunk_id : String
  doc_id : String
  doc_url : String
  chunk_title : String
  text : String
deriving DecidableEq, Repr

/-- The input dict of `process_document` (`data.get` defaults are applied at use
sites). -/
structure DocRec where
  id : Option String
  url : Option String
  texto_limpio : Option String

/-- Lowercase letters (ASCII plus Spanish), for `str.isupper`. -/
def lowerChar (c : Char) : Bool :=
  c.isLower ∨ c ∈ ['á', 'é', 'í', 'ó', 'ú', 'ñ', 'ü']

def upperChar (c : Char) : Bool :=
  ('A' ≤ c ∧ c ≤ 'Z') ∨ c ∈ ['Á', 'É', 'Í', 'Ó', 'Ú', 'Ñ', 'Ü']

def casedChar (c : Char) : Bool := lowerChar c ∨ upperChar c

/-- Python `str.isupper`: at least one cased character and no lowercase one. -/
def pyIsUpper (s : String) : Bool :=
  s.data.any casedChar ∧ s.data.all (fun c => ¬ lowerChar c)

/-- `chunk_text.split('\n', 1)[0]`. -/
def firstLine (s : String) : String :=
  String.mk (s.data.takeWhile (fun c => c ≠ '\n'))

/-- The title heuristic of `process_document`. -/
def chunkTitle (ct : String) : String :=
  let fl := firstLine ct
  if fl.length < 150 ∧ pyIsUpper fl then fl else "Context"

def mkChunk (doc_id doc_url : String) (seq : Nat) (ct : String) : ChunkRec :=
  { chunk_id := doc_id ++ "_chunk_" ++ toString seq
    doc_id := doc_id
    doc_url := doc_url
    chunk_title := chunkTitle ct
    text := ct }

/-- Loop body of `process_document`: strip the piece, drop it if empty, otherwise
append a chunk and advance `chunk_seq`. -/
def addChunk (doc_id doc_url : String) (acc : List ChunkRec × Nat) (piece : String) :
    List ChunkRec × Nat :=
  let ct := pyStrip piece
  if ct = "" then acc
  else (acc.1 ++ [mkChunk doc_id doc_url acc.2 ct], acc.2 + 1)

/-- `process_document` from `chunker.py`. -/
def process_document (data : DocRec) : List ChunkRec :=
  let text := data.texto_limpio.getD ""
  let doc_id := data.id.getD "unknown"
  let doc_url := data.url.getD ""
  if text = "" then []
  else ((legalBoundarySplit text).foldl (addChunk doc_id doc_url) ([], 0)).1

/-! ## boe_ingestion/services/parsing_service.py

The BeautifulSoup tree is modelled as `XNode`; `Markup.malformed` models input
whose parsing raises (the `except` clause of `parse_legal_text` maps it to `""`). -/

inductive XNode where
  | elem (tag : String) (children : List XNode) : XNode
  | text (s : String) : XNode

mutual
def decEqX : (a b : XNode) → Decidable (a = b)
  | .text s, .text t =>
    match String.decEq s t with
    | isTrue h => isTrue (by rw [h])
    | isFalse h => isFalse (fun hh => by cases hh; exact h rfl)
  | .elem t1 c1, .elem t2 c2 =>
    match String.decEq t1 t2, decEqXList c1 c2 with
    | isTrue h1, isTrue h2 => isTrue (by rw [h1, h2])
    | isFalse h1, _ => isFalse (fun hh => by cases hh; exact h1 rfl)
    | _, isFalse h2 => isFalse (fun hh => by cases hh; exact h2 rfl)
  | .text _, .elem _ _ => isFalse (fun hh => by cases hh)
  | .elem _ _, .text _ => isFalse (fun hh => by cases hh)

def decEqXList : (a b : List XNode) → Decidable (a = b)
  | [], [] => isTrue rfl
  | x :: xs, y :: ys =>
    match decEqX x y, decEqXList xs ys with
    | isTrue h1, isTrue h2 => isTrue (by rw [h1, h2])
    | isFalse h1, _ => isFalse (fun hh => by cases hh; exact h1 rfl)
    | _, isFalse h2 => isFalse (fun hh => by cases hh; exact h2 rfl)
  | [], _ :: _ => isFalse (fun hh => by cases hh)
  | _ :: _, [] => isFalse (fun hh => by cases hh)
end

instance : DecidableEq XNode := decEqX

/-- Parsed (`doc`) or exception-raising (`malformed`) markup. -/
inductive Markup where
  | malformed : Markup
  | doc (root : XNode) : Markup

mutual
/-- `soup.select_one('documento > texto')`: the first element in document order
whose tag is `texto` and whose parent's tag is `documento`. -/
def findTexto (underDocumento : Bool) : XNode → Option XNode
  | .text _ => none
  | .elem tag cs =>
    if underDocumento ∧ tag = "texto" then some (.elem tag cs)
    else findTextoList (tag = "documento") cs

def findTextoList (underDocumento : Bool) : List XNode → Option XNode
  | [] => none
  | n :: ns =>
    match findTexto underDocumento n with
    | some r => some r
    | none => findTextoList underDocumento ns
end

mutual
/-- All text fragments below a node, in document order. -/
def nodeTexts : XNode → List String
  | .text s => [s]
  | .elem _ cs => listTexts cs

def listTexts : List XNode → List String
  | [] => []
  | n :: ns => nodeTexts n ++ listTexts ns
end

/-- `get_text(strip=True)`: strip each fragment, drop the empty ones, concatenate. -/
def getTextStrip (n : XNode) : String :=
  String.join (((nodeTexts n).map pyStrip).filter (fun s => s ≠ ""))

mutual
/-- All `<p>` descendants, in document order (`find_all('p')`). -/
def findPsList : List XNode → List XNode
  | [] => []
  | n :: ns => findPsNode n ++ findPsList ns

def findPsNode : XNode → List XNode
  | .text _ => []
  | .elem tag cs => (if tag = "p" then [XNode.elem tag cs] else []) ++ findPsList cs
end

/-- `text_element.find_all('p')` searches descendants only. -/
def findAllP : XNode → List XNode
  | .text _ => []
  | .elem _ cs => findPsList cs

/-- Python `s.split()`: maximal runs of non-whitespace characters. -/
def pyWords : List Char → List (List Char)
  | [] => []
  | c :: cs =>
    if pyStripWs c then pyWords cs
    else (c :: cs.takeWhile (fun d => ¬ pyStripWs d)) :: pyWords (cs.dropWhile (fun d => ¬ pyStripWs d))
termination_by cs => cs.length
decreasing_by
  · simp only [List.length_cons]; omega
  · simp only [List.length_cons]
    exact Nat.lt_succ_of_le (List.dropWhile_suffix _).length_le

/-- `" ".join(s.split())`. -/
def normalizeWs (s : String) : String :=
  String.intercalate " " ((pyWords s.data).map (fun w => String.mk w))

/-- The rendering of the selected `<texto>` element: paragraph texts joined by
newlines, or the whitespace-collapsed fallback when it has no `<p>` descendants. -/
def renderTexto (t : XNode) : String :=
  match findAllP t with
  | [] => normalizeWs (getTextStrip t)
  | ps => String.intercalate "\n" ((ps.map getTextStrip).filter (fun l => l ≠ ""))

/-- `parse_legal_text` from `parsing_service.py`. -/
def parse_legal_text : Markup → String
  | .malformed => ""
  | .doc root =>
    match findTexto false root with
    | none => ""
    | some t => renderTexto t

/-! ## boe_ingestion/services/api_client.py

JSON values are modelled by `Json`; `fetch_summary_ids` returns `none` exactly
when the Python code would raise an exception that its `except` clauses do not
catch (an `AttributeError` from calling `.get` on a non-dict, a `TypeError` from
iterating a non-iterable, or a `TypeError` from hashing an unhashable identifier
in `set(all_doc_ids)`). -/

inductive Json where
  | null : Json
  | bool (b : Bool) : Json
  | num (n : Int) : Json
  | str (s : String) : Json
  | arr (items : List Json) : Json
  | obj (fields : List (String × Json)) : Json

mutual
def decEqJ : (a b : Json) → Decidable (a = b)
  | .null, .null => isTrue rfl
  | .bool x, .bool y =>
    match Bool.decEq x y with
    | isTrue h => isTrue (by rw [h])
    | isFalse h => isFalse (fun hh => by cases hh; exact h rfl)
  | .num x, .num y =>
    match Int.instDecidableEq x y with
    | isTrue h => isTrue (by rw [h])
    | isFalse h => isFalse (fun hh => by cases hh; exact h rfl)
  | .str x, .str y =>
    match String.decEq x y with
    | isTrue h => isTrue (by rw [h])
    | isFalse h => isFalse (fun hh => by cases hh; exact h rfl)
  | .arr x, .arr y =>
    match decEqJList x y with
    | isTrue h => isTrue (by rw [h])
    | isFalse h => isFalse (fun hh => by cases hh; exact h rfl)
  | .obj x, .obj y =>
    match decEqJFields x y with
    | isTrue h => isTrue (by rw [h])
    | isFalse h => isFalse (fun hh => by cases hh; exact h rfl)
  | .null, .bool _ => isFalse (fun hh => by cases hh)
  | .null, .num _ => isFalse (fun hh => by cases hh)
  | .null, .str _ => isFalse (fun hh => by cases hh)
  | .null, .arr _ => isFalse (fun hh => by cases hh)
  | .null, .obj _ => isFalse (fun hh => by cases hh)
  | .bool _, .null => isFalse (fun hh => by cases hh)
  | .bool _, .num _ => isFalse (fun hh => by cases hh)
  | .bool _, .str _ => isFalse (fun hh => by cases hh)
  | .bool _, .arr _ => isFalse (fun hh => by cases hh)
  | .bool _, .obj _ => isFalse (fun hh => by cases hh)
  | .num _, .null => isFalse (fun hh => by cases hh)
  | .num _, .bool _ => isFalse (fun hh => by cases hh)
  | .num _, .str _ => isFalse (fun hh => by cases hh)
  | .num _, .arr _ => isFalse (fun hh => by cases hh)
  | .num _, .obj _ => isFalse (fun hh => by cases hh)
  | .str _, .null => isFalse (fun hh => by cases hh)
  | .str _, .bool _ => isFalse (fun hh => by cases hh)
  | .str _, .num _ => isFalse (fun hh => by cases hh)
  | .str _, .arr _ => isFalse (fun hh => by cases hh)
  | .str _, .obj _ => isFalse (fun hh => by cases hh)
  | .arr _, .null => isFalse (fun hh => by cases hh)
  | .arr _, .bool _ => isFalse (fun hh => by cases hh)
  | .arr _, .num _ => isFalse (fun hh => by cases hh)
  | .arr _, .str _ => isFalse (fun hh => by cases hh)
  | .arr _, .obj _ => isFalse (fun hh => by cases hh)
  | .obj _, .null => isFalse (fun hh => by cases hh)
  | .obj _, .bool _ => isFalse (fun hh => by cases hh)
  | .obj _, .num _ => isFalse (fun hh => by cases hh)
  | .obj _, .str _ => isFalse (fun hh => by cases hh)
  | .obj _, .arr _ => isFalse (fun hh => by cases hh)

def decEqJList : (a b : List Json) → Decidable (a = b)
  | [], [] => isTrue rfl
  | x :: xs, y :: ys =>
    match decEqJ x y, decEqJList xs ys with
    | isTrue h1, isTrue h2 => isTrue (by rw [h1, h2])
    | isFalse h1, _ => isFalse (fun hh => by cases hh; exact h1 rfl)
    | _, isFalse h2 => isFalse (fun hh => by cases hh; exact h2 rfl)
  | [], _ :: _ => isFalse (fun hh => by cases hh)
  | _ :: _, [] => isFalse (fun hh => by cases hh)

def decEqJFields : (a b : List (String × Json)) → Decidable (a = b)
  | [], [] => isTrue rfl
  | (k1, v1) :: xs, (k2, v2) :: ys =>
    match String.decEq k1 k2, decEqJ v1 v2, decEqJFields xs ys with
    | isTrue h0, isTrue h1, isTrue h2 => isTrue (by rw [h0, h1, h2])
    | isFalse h0, _, _ => isFalse (fun hh => by cases hh; exact h0 rfl)
    | _, isFalse h1, _ => isFalse (fun hh => by cases hh; exact h1 rfl)
    | _, _, isFalse h2 => isFalse (fun hh => by cases hh; exact h2 rfl)
  | [], _ :: _ => isFalse (fun hh => by cases hh)
  | _ :: _, [] => isFalse (fun hh => by cases hh)
end

instance : DecidableEq Json := decEqJ

/-- Python truthiness. -/
def truthy : Json → Bool
  | .null => false
  | .bool b => b
  | .num n => n != 0
  | .str s => s != ""
  | .arr l => !l.isEmpty
  | .obj f => !f.isEmpty

/-- Dictionary lookup (Python dicts have unique keys; first match). -/
def jLookup (fields : List (String × Json)) (k : String) : Option Json :=
  (fields.find? (fun p => p.1 == k)).map (fun p => p.2)

/-- `d.get(k, default)`. -/
def jGetD (fields : List (String × Json)) (k : String) (d : Json) : Json :=
  (jLookup fields k).getD d

def asObj : Json → Option (List (String × Json))
  | .obj f => some f
  | _ => none

/-- Python iteration `for x in v`: lists yield their elements, dicts their keys,
strings their one-character substrings; anything else raises `TypeError`. -/
def pyIter : Json → Option (List Json)
  | .arr l => some l
  | .obj f => some (f.map (fun p => Json.str p.1))
  | .str s => some (s.data.map (fun c => Json.str (String.mk [c])))
  | _ => none

/-- Values Python can put in a `set`. -/
def hashable : Json → Bool
  | .arr _ => false
  | .obj _ => false
  | _ => true

/-- The `item` shape normalization: a list is kept, a single dict becomes a
one-element list, anything else yields nothing. -/
def itemsToProcess : Json → List Json
  | .arr l => l
  | .obj f => [Json.obj f]
  | _ => []

/-- The innermost loop body: keep `item['identificador']` when both
`identificador` and `url_xml` are truthy. -/
def processItem (it : Json) : List Json :=
  match it with
  | .obj itF =>
    let docId := jGetD itF "identificador" .null
    let urlXml := jGetD itF "url_xml" .null
    if truthy docId ∧ truthy urlXml then [docId] else []
  | _ => []

/-- Per-epigrafe processing: skip non-dicts, skip falsy `item`, normalize, loop. -/
def processEpigrafe (e : Json) : List Json :=
  match e with
  | .obj eF =>
    let itemData := jGetD eF "item" .null
    if truthy itemData then (itemsToProcess itemData).flatMap processItem else []
  | _ => []

/-- Per-departamento processing (iterating `epigrafe` may raise `TypeError`). -/
def processDepartamento (d : Json) : Option (List Json) :=
  match d with
  | .obj dF => (pyIter (jGetD dF "epigrafe" (.arr []))).map (fun epis => epis.flatMap processEpigrafe)
  | _ => some []

/-- The sections 1 and 3 domain filter. -/
def allowedCodigo (c : Json) : Bool := c == .str "1" || c == .str "3"

/-- Per-seccion processing: skip non-dicts, apply the codigo filter, iterate
`departamento`. -/
def processSeccion (s : Json) : Option (List Json) :=
  match s with
  | .obj sF =>
    if allowedCodigo (jGetD sF "codigo" .null) then
      match pyIter (jGetD sF "departamento" (.arr [])) with
      | none => none
      | some deps => (deps.mapM processDepartamento).map (fun ls => ls.flatten)
    else some []
  | _ => some []

/-- Per-diario processing: skip non-dicts, iterate `seccion`. -/
def processDiario (d : Json) : Option (List Json) :=
  match d with
  | .obj dF =>
    match pyIter (jGetD dF "seccion" (.arr [])) with
    | none => none
    | some secs => (secs.mapM processSeccion).map (fun ls => ls.flatten)
  | _ => some []

/-- `fetch_summary_ids` from `api_client.py`, applied to the decoded response
body.  `list(set(all_doc_ids))` is modelled as `List.dedup` (the Python set
iteration order is implementation-defined; any fixed deduplication represents
it for the properties considered here). -/
def fetch_summary_ids (root : Json) : Option (List Json) := do
  let rootF ← asObj root
  let dataF ← asObj (jGetD rootF "data" (.obj []))
  let sumF ← asObj (jGetD dataF "sumario" (.obj []))
  let diarios ← pyIter (jGetD sumF "diario" (.arr []))
  let ls ← diarios.mapM processDiario
  let allIds := ls.flatten
  if allIds.all hashable then some allIds.dedup else none

/-! ## boe_ingestion/orchestrator.py — dates

`datetime.strptime(s, "%Y%m%d")` per CPython `_strptime`: `%Y` matches exactly
four digits, `%m` matches `1[0-2]|0[1-9]|[1-9]`, `%d` matches
`3[01]|[12]\d|0[1-9]|[1-9]` (two-digit alternatives preferred), the whole string
must be consumed, and `datetime(year, month, day)` then range-checks the day
against the month length and requires `year ≥ 1`.  In particular some strings
that are not 8 digits long (e.g. `"202311"`) parse successfully. -/

structure Ymd where
  year : Nat
  month : Nat
  day : Nat
deriving DecidableEq, Repr

def isLeapYear (y : Nat) : Bool := y % 4 = 0 ∧ (y % 100 ≠ 0 ∨ y % 400 = 0)

def daysInMonth (y m : Nat) : Nat :=
  if m = 2 then (if isLeapYear y then 29 else 28)
  else if m = 4 ∨ m = 6 ∨ m = 9 ∨ m = 11 then 30 else 31

def digitVal (c : Char) : Nat := c.toNat - 48

def digitsToNat (cs : List Char) : Nat := cs.foldl (fun a c => a * 10 + digitVal c) 0

/-- `1[0-2]|0[1-9]` (a two-digit month). -/
def month2 (a b : Char) : Option Nat :=
  if a = '1' ∧ (b = '0' ∨ b = '1' ∨ b = '2') then some (10 + digitVal b)
  else if a = '0' ∧ '1' ≤ b ∧ b ≤ '9' then some (digitVal b)
  else none

/-- `[1-9]`. -/
def digit19 (a : Char) : Option Nat :=
  if '1' ≤ a ∧ a ≤ '9' then some (digitVal a) else none

/-- `3[01]|[12]\d|0[1-9]` (a two-digit day). -/
def day2 (a b : Char) : Option Nat :=
  if a = '3' ∧ (b = '0' ∨ b = '1') then some (30 + digitVal b)
  else if (a = '1' ∨ a = '2') ∧ b.isDigit then some (digitVal a * 10 + digitVal b)
  else if a = '0' ∧ '1' ≤ b ∧ b ≤ '9' then some (digitVal b)
  else none

/-- Month/day match of the tail after the four year digits, with the regex
alternation preference (two-digit month first) and full consumption. -/
def mdParse : List Char → Option (Nat × Nat)
  | [a, b] =>
    match digit19 a, digit19 b with
    | some m, some d => some (m, d)
    | _, _ => none
  | [a, b, c] =>
    (match month2 a b, digit19 c with
     | some m, some d => some (m, d)
     | _, _ =>
       match digit19 a, day2 b c with
       | some m, some d => some (m, d)
       | _, _ => none)
  | [a, b, c, d] =>
    match month2 a b, day2 c d with
    | some m, some dd => some (m, dd)
    | _, _ => none
  | _ => none

/-- `datetime.strptime(s, "%Y%m%d")`, `none` when it raises `ValueError`. -/
def strptimeYmd (s : String) : Option Ymd :=
  match s.data with
  | y1 :: y2 :: y3 :: y4 :: rest =>
    if [y1, y2, y3, y4].all Char.isDigit then
      match mdParse rest with
      | some (m, d) =>
        let y := digitsToNat [y1, y2, y3, y4]
        if 1 ≤ y ∧ d ≤ daysInMonth y m then some ⟨y, m, d⟩ else none
      | none => none
    else none
  | _ => none

/-- Left-pad with zeros (`strftime` zero padding). -/
def padZeros (n width : Nat) : String :=
  let s := toString n
  String.mk (List.replicate (width - s.data.length) '0') ++ s

/-- `current_date.strftime("%Y%m%d")`. -/
def fmtYmd (d : Ymd) : String := padZeros d.year 4 ++ padZeros d.month 2 ++ padZeros d.day 2

/-- `current_date + timedelta(days=1)`. -/
def nextDay (d : Ymd) : Ymd :=
  if d.day < daysInMonth d.year d.month then ⟨d.year, d.month, d.day + 1⟩
  else if d.month < 12 then ⟨d.year, d.month + 1, 1⟩
  else ⟨d.year + 1, 1, 1⟩

/-- `datetime` comparison (lexicographic). -/
def dateLE (a b : Ymd) : Bool :=
  a.year < b.year ∨ (a.year = b.year ∧ (a.month < b.month ∨ (a.month = b.month ∧ a.day ≤ b.day)))

/-- A measure that `nextDay` strictly increases on valid dates. -/
def dateOrd (d : Ymd) : Nat := d.year * 372 + d.month * 31 + d.day

/-- The dates visited by `while current_date <= end_date`, fuelled;
`ingest_boe_data` supplies enough fuel. -/
def dateSweep : Nat → Ymd → Ymd → List Ymd
  | 0, _, _ => []
  | fuel + 1, cur, e => if dateLE cur e then cur :: dateSweep fuel (nextDay cur) e else []

/-! ## boe_ingestion/orchestrator.py — the ingestion state machine

The hardened external boundaries are a deterministic `Source` oracle:
`fetchIds` is `api_client.fetch_summary_ids` for a date string, `fetchXml` is
`api_client.fetch_document_xml` (absent = `None`), `parse` is
`parsing_service.parse_legal_text` on the fetched string.  All three absorb
their own failures and never raise (their `except` clauses).  The run state
records the persisted `RawDocument`s and appended cache lines of this run,
plus ghost observations: attempted fetches and the two skip counters. -/

structure RawDoc where
  id : String
  date : String
  url : String
  texto_limpio : String
deriving DecidableEq, Repr

structure Source where
  fetchIds : String → List String
  fetchXml : String → Option String
  parse : String → String

structure IngestState where
  existing : Finset String
  raw : List RawDoc
  cacheApp : List String
  total : Nat
  fetchedDates : List String
  fetchedDocs : List String
  skipNoContent : Nat
  skipEmptyText : Nat

def boeUrl (docId : String) : String :=
  "https://www.boe.es/diario_boe/txt.php?id=" ++ docId

/-- The per-identifier loop body of `ingest_boe_data`; the `Nat` component is the
local `new_docs_this_day` counter. -/
def processDoc (src : Source) (dateStr : String) (p : IngestState × Nat) (docId : String) :
    IngestState × Nat :=
  let st := p.1
  if docId ∈ st.existing then p
  else
    let st := { st with fetchedDocs := st.fetchedDocs ++ [docId] }
    let n := p.2 + 1
    match src.fetchXml docId with
    | none => ({ st with skipNoContent := st.skipNoContent + 1 }, n)
    | some xml =>
      if xml = "" then ({ st with skipNoContent := st.skipNoContent + 1 }, n)
      else
        let t := src.parse xml
        if t = "" then ({ st with skipEmptyText := st.skipEmptyText + 1 }, n)
        else
          ({ st with
              raw := st.raw ++ [⟨docId, dateStr, boeUrl docId, t⟩]
              cacheApp := st.cacheApp ++ [docId]
              existing := insert docId st.existing }, n)

/-- The per-day loop body of `ingest_boe_data`: fetch the day's identifiers, skip
the day when there are none, else run the identifier loop and add
`new_docs_this_day` to the running total. -/
def processDay (src : Source) (st : IngestState) (dateStr : String) : IngestState :=
  let st := { st with fetchedDates := st.fetchedDates ++ [dateStr] }
  let ids := src.fetchIds dateStr
  if ids = [] then st
  else
    let p := ids.foldl (processDoc src dateStr) (st, 0)
    { p.1 with total := p.1.total + p.2 }

def initState (mem : Finset String) : IngestState :=
  { existing := mem, raw := [], cacheApp := [], total := 0,
    fetchedDates := [], fetchedDocs := [], skipNoContent := 0, skipEmptyText := 0 }

/-- `ingest_boe_data` from `orchestrator.py`.  The cache is loaded first; then both
date bounds are parsed — a `ValueError` returns immediately (`initState`, no
fetches, no writes); otherwise the day loop runs over the swept dates. -/
def ingest_boe_data (src : Source) (cacheFile : Option (List String)) (startStr endStr : String) :
    IngestState :=
  let mem0 := load_processed_ids cacheFile
  let st0 := initState mem0
  match strptimeYmd startStr, strptimeYmd endStr with
  | some ds, some de =>
    let dates := (dateSweep (dateOrd de + 1 - dateOrd ds) ds de).map fmtYmd
    dates.foldl (processDay src) st0
  | _, _ => st0

/-- The `finally` block's summary: total newly processed this run, total unique
identifiers now known. -/
def ingestSummary (st : IngestState) : Nat × Nat := (st.total, st.existing.card)

/-! ## rag_agent/service.py

The three external capabilities are an oracle record: `encode` (the sentence
embedder), `search` (`qdrant.query_points`, given the vector and the limit), and
`generate` (the Groq streaming call, returning the raw `delta.content` values it
produces and, optionally, the exception it raises after them — an exception while
creating the stream is `([], some e)`).  `Except.error` models a raised
exception; scores are modelled by their rendered `"%.2f"` string (floating point
is outside the embedding).  The async generator `chat_stream` is modelled as the
list of fragments it yields. -/

structure Hit where
  payload : List (String × String)
  scoreStr : String

structure ChatMsg where
  role : String
  content : String
deriving DecidableEq, Repr

structure RagDeps (Vec : Type) where
  encode : String → Except String Vec
  search : Vec → Nat → Except String (List Hit)
  generate : List ChatMsg → List (Option String) × Option String

def lookupS (l : List (String × String)) (k : String) : Option String :=
  (l.find? (fun p => p.1 == k)).map (fun p => p.2)

def placeholderContext : String := "No se pudo acceder a la base de datos legal."

/-- The per-hit context accumulation of `_get_context`. -/
def renderHit (acc : String × List String) (hit : Hit) : String × List String :=
  let docId := (lookupS hit.payload "original_id").getD "Unknown"
  let docText := (lookupS hit.payload "text").getD "Content Not Available."
  (acc.1 ++ "--- Documento: " ++ docId ++ " (Relevancia: " ++ hit.scoreStr ++ ") ---\n"
      ++ docText ++ "\n\n",
   acc.2 ++ [docId])

/-- `RagService._get_context`: encoding failure degrades to empty context, search
failure degrades to the placeholder notice; neither raises. -/
def get_context {Vec : Type} (deps : RagDeps Vec) (query : String) (limit : Nat) :
    String × List String :=
  match deps.encode query with
  | .error _ => ("", [])
  | .ok v =>
    match deps.search v limit with
    | .error _ => (placeholderContext, [])
    | .ok hits => hits.foldl renderHit ("", [])

/-- The system prompt (the Python adjacent string literals concatenate). -/
def systemPromptFor (ctx : String) : String :=
  "Eres Justiniano, un asistente legal experto en leyes españolas (BOE). "
    ++ "Usa la siguiente información de contexto (referencias a documentos) para responder. "
    ++ "Si no puedes responder con certeza, indícalo. "
    ++ "Responde siempre en español profesional.\n\n"
    ++ "No pases de los 12000 tokens en la respuesta."
    ++ "CONTEXTO DISPONIBLE:\n" ++ ctx

/-- `history[-4:]`. -/
def lastFour (history : List ChatMsg) : List ChatMsg :=
  history.drop (history.length - 4)

/-- The messages payload: system prompt, at most the last 4 history turns, the
user query. -/
def messagesPayload (ctx query : String) (history : List ChatMsg) : List ChatMsg :=
  (⟨"system", systemPromptFor ctx⟩ :: (if history = [] then [] else lastFour history))
    ++ [⟨"user", query⟩]

/-- The error fragment yielded by the `except` clause of `chat_stream`. -/
def sysErrorFragment (e : String) : String :=
  "Error del sistema: No se pudo conectar con el motor de IA. (" ++ e ++ ")"

/-- `if content: yield content` over the stream's `delta.content` values. -/
def streamBody (chunks : List (Option String)) : List String :=
  chunks.filterMap (fun c =>
    match c with
    | some s => if s = "" then none else some s
    | none => none)

/-- `RagService.chat_stream`: the full sequence of yielded fragments.  The tier
parameter is accepted and unused, as in the source. -/
def chat_stream {Vec : Type} (deps : RagDeps Vec) (query : String) (history : List ChatMsg)
    (userTier : String) : List String :=
  let ctx := (get_context deps query 5).1
  let msgs := messagesPayload ctx query history
  let g := deps.generate msgs
  match g.2 with
  | none => streamBody g.1
  | some e => streamBody g.1 ++ [sysErrorFragment e]

/-! ## Verification-side predicates and manifest builders -/

/-- The number of identifiers that passed the cache check so far: persisted
documents plus the two kinds of skips. -/
def runCount (st : IngestState) : Nat :=
  st.raw.length + st.skipNoContent + st.skipEmptyText

/-- Identifiers of the initial set `m0` are never appended to either store, and
the in-memory set only grows. -/
def FreshAppends (m0 : Finset String) (st : IngestState) : Prop :=
  m0 ⊆ st.existing ∧ (∀ d ∈ st.raw, d.id ∉ m0) ∧ (∀ i ∈ st.cacheApp, i ∉ m0)

/-- Lockstep relation between a first run (`st1`) and a second run (`st2`) over
the same dates: the second run knows at least as many identifiers and has
appended no record the first run did not append. -/
def Weaker (st1 st2 : IngestState) : Prop :=
  st1.existing ⊆ st2.existing ∧ st2.raw.toFinset ⊆ st1.raw.toFinset ∧
    st2.cacheApp.toFinset ⊆ st1.cacheApp.toFinset

/-- An item dict kept by `fetch_summary_ids`: both `identificador` and `url_xml`
are truthy, and the identifier is the `identificador` value. -/
def KeptItem (itF : List (String × Json)) (id : Json) : Prop :=
  truthy (jGetD itF "identificador" .null) = true ∧
    truthy (jGetD itF "url_xml" .null) = true ∧
    id = jGetD itF "identificador" .null

/-- Provenance of an identifier returned by `fetch_summary_ids`: it comes from a
kept item of an epigrafe of a departamento of a seccion whose `codigo` passes
the sections 1/3 filter, inside the manifest's nesting. -/
def FromAllowedSection (root id : Json) : Prop :=
  ∃ rootF dataF sumF diarios dF secs sF deps dpF epis eF itF,
    asObj root = some rootF ∧
    asObj (jGetD rootF "data" (.obj [])) = some dataF ∧
    asObj (jGetD dataF "sumario" (.obj [])) = some sumF ∧
    pyIter (jGetD sumF "diario" (.arr [])) = some diarios ∧
    Json.obj dF ∈ diarios ∧
    pyIter (jGetD dF "seccion" (.arr [])) = some secs ∧
    Json.obj sF ∈ secs ∧
    allowedCodigo (jGetD sF "codigo" .null) = true ∧
    pyIter (jGetD sF "departamento" (.arr [])) = some deps ∧
    Json.obj dpF ∈ deps ∧
    pyIter (jGetD dpF "epigrafe" (.arr [])) = some epis ∧
    Json.obj eF ∈ epis ∧
    truthy (jGetD eF "item" .null) = true ∧
    Json.obj itF ∈ itemsToProcess (jGetD eF "item" .null) ∧
    KeptItem itF id

/-- An epigrafe whose `item` field is `item`, with arbitrary further fields. -/
def epigrafeWith (item : Json) (eRest : List (String × Json)) : Json :=
  .obj (("item", item) :: eRest)

/-- A departamento with the given epigrafes, with arbitrary further fields. -/
def departamentoWith (epis : List Json) (dpRest : List (String × Json)) : Json :=
  .obj (("epigrafe", .arr epis) :: dpRest)

/-- A seccion with the given `codigo` and departamentos. -/
def seccionWith (codigo : Json) (deps : List Json) (sRest : List (String × Json)) : Json :=
  .obj (("codigo", codigo) :: ("departamento", .arr deps) :: sRest)

/-- A diario with the given secciones. -/
def diarioWith (secs : List Json) (dRest : List (String × Json)) : Json :=
  .obj (("seccion", .arr secs) :: dRest)

/-- A whole manifest with the given diarios. -/
def manifestWith (diarios : List Json) (sumRest dataRest rootRest : List (String × Json)) : Json :=
  .obj (("data", .obj (("sumario", .obj (("diario", .arr diarios) :: sumRest)) :: dataRest))
    :: rootRest)

/-! ## Concrete instances used by counterexamples and witnesses -/

/-- A well-formed one-item manifest. -/
def oneItemManifest : Json :=
  manifestWith
    [diarioWith
      [seccionWith (.str "1")
        [departamentoWith
          [epigrafeWith (.obj [("identificador", .str "BOE-A-2023-1"), ("url_xml", .str "http://x")]) []]
          []]
        []]
      []]
    [] [] []

/-- A source whose single identifier has no fetchable content. -/
def noContentSource : Source :=
  { fetchIds := fun _ => ["BOE-A-2024-1"], fetchXml := fun _ => none, parse := fun s => s }

/-- A source that always yields one processable document. -/
def oneDocSource : Source :=
  { fetchIds := fun _ => ["BOE-A-2023-9"], fetchXml := fun _ => some "x", parse := fun s => s }

/-- Retrieval dependencies whose search fails and whose generation stream is
empty and raises nothing. -/
def emptyGenDeps : RagDeps Unit :=
  { encode := fun _ => .ok (), search := fun _ _ => .error "db down",
    generate := fun _ => ([], none) }

/-- Retrieval dependencies whose search fails and whose generation yields two
raw chunks (one empty, one `None`) and then raises. -/
def failingGenDeps : RagDeps Unit :=
  { encode := fun _ => .ok (), search := fun _ _ => .error "down",
    generate := fun _ => ([some "Hola", none, some ""], some "boom") }

/-! # Theorems -/

/-! ## C10 — the cache loader -/

/-- C10: for every content of the identifier-cache file, `load_processed_ids`
returns exactly the distinct whitespace-trimmed non-blank lines — blank lines
and repeated lines (such as duplicates accumulated by the append-only
`save_processed_id` across crash-restarts) never produce entries, and the empty
string is never a member. -/
theorem load_processed_ids_spec :
    (∀ lines x, x ∈ load_processed_ids (some lines) ↔ x ≠ "" ∧ ∃ l ∈ lines, pyStrip l = x) ∧
    (∀ lines, "" ∉ load_processed_ids (some lines)) ∧
    (∀ lines a,
      load_processed_ids (some (save_processed_id (save_processed_id lines a) a))
        = load_processed_ids (some (save_processed_id lines a))) := by
  refine ⟨?_, ?_, ?_⟩
  · intro lines x
    simp only [load_processed_ids, List.mem_toFinset, List.mem_map, List.mem_filter,
      decide_eq_true_eq]
    constructor
    · rintro ⟨l, ⟨hl, hne⟩, he⟩
      exact ⟨he ▸ hne, l, hl, he⟩
    · rintro ⟨hx, l, hl, he⟩
      exact ⟨l, ⟨hl, he ▸ hx⟩, he⟩
  · intro lines
    simp only [load_processed_ids, List.mem_toFinset, List.mem_map, List.mem_filter,
      decide_eq_true_eq]
    rintro ⟨l, ⟨_, hne⟩, he⟩
    exact hne he
  · intro lines a
    simp only [load_processed_ids, save_processed_id, List.append_assoc, List.filter_append,
      List.map_append, List.toFinset_append]
    by_cases h : pyStrip a = "" <;>
      simp [List.filter, h, Finset.union_assoc]

/-! ## C6 — the concrete chunking example -/

/-- C6: on `texto_limpio = "Intro.\nArtículo 1. Foo.\nBar.\nArtículo 2. Baz."`,
chunking yields exactly 3 chunks; the second chunk's text starts with (indeed
equals up to the following line) "Artículo 1. Foo." and the third's starts with
"Artículo 2. Baz." — the split does not consume the marker text. -/
theorem process_document_example :
    (process_document
        ⟨some "doc1", some "u", some "Intro.\nArtículo 1. Foo.\nBar.\nArtículo 2. Baz."⟩).length
        = 3 ∧
    (process_document
        ⟨some "doc1", some "u", some "Intro.\nArtículo 1. Foo.\nBar.\nArtículo 2. Baz."⟩).map
          ChunkRec.text
        = ["Intro.", "Artículo 1. Foo.\nBar.", "Artículo 2. Baz."] := by
  decide

/-! ## C3 — the final summary count -/

/-- C3 counterexample: with a single uncached identifier whose content fetch is
absent, nothing is persisted, yet the final summary reports one newly processed
document (the counter is incremented before the content fetch, so documents
skipped for absent content or empty extraction are counted). -/
theorem ingest_summary_counterexample :
    ingestSummary (ingest_boe_data noContentSource (some []) "20240101" "20240101") = (1, 0) ∧
    (ingest_boe_data noContentSource (some []) "20240101" "20240101").raw.length = 0 := by
  decide

/-! ## C7 — malformed date bounds -/

/-- C7 counterexample: `"202311"` is not an 8-digit date string, yet
`datetime.strptime` accepts it (`%m` and `%d` also match single digits), so the
orchestrator does not abort: it sweeps the day `20230101`, fetches its manifest
and persists a document. -/
theorem ingest_dates_counterexample :
    ("202311".data.length ≠ 8) ∧
    (ingest_boe_data oneDocSource (some []) "202311" "202311").fetchedDates = ["20230101"] ∧
    (ingest_boe_data oneDocSource (some []) "202311" "202311").raw.length = 1 := by
  decide

/-- C7 (amended): whenever either date bound is rejected by
`strptime("%Y%m%d")` — four year digits then a one-or-two-digit month and day
consuming the whole string and forming a valid calendar date — the orchestrator
returns immediately after loading the cache: no manifest or content fetch
happens, no `RawDocument` is persisted, no cache line is appended and the
summary reports zero new documents.  (The claim's "8-digit" reading is refuted
by the counterexample: some shorter all-digit strings are accepted.) -/
theorem ingest_invalid_dates_abort (src : Source) (cacheFile : Option (List String))
    (s e : String) (h : strptimeYmd s = none ∨ strptimeYmd e = none) :
    ingest_boe_data src cacheFile s e = initState (load_processed_ids cacheFile) := by
  unfold ingest_boe_data
  rcases h with h | h
  · simp [h]
  · rcases hs : strptimeYmd s with _ | ds <;> simp [hs, h]

/-- Witness for the amended C7 theorem at a concrete malformed bound. -/
theorem ingest_invalid_dates_abort_witness :
    ingest_boe_data oneDocSource (some ["BOE-A-2020-7"]) "2023-01-01" "20230105"
      = initState (load_processed_ids (some ["BOE-A-2020-7"])) :=
  ingest_invalid_dates_abort oneDocSource (some ["BOE-A-2020-7"]) "2023-01-01" "20230105"
    (Or.inl (by decide))

/-! ## C5 — chunker contract -/

theorem splitAtBoundaries_of_none (fuel : Nat) (cs : List Char) (h : findBoundary cs = none) :
    splitAtBoundaries fuel cs = [cs] := by
  cases fuel <;> simp [splitAtBoundaries, h]

theorem legalBoundarySplit_of_none (s : String) (h : findBoundary s.data = none) :
    legalBoundarySplit s = [s] := by
  obtain ⟨d⟩ := s
  simp [legalBoundarySplit, splitAtBoundaries_of_none _ _ h]

theorem addChunk_fold_ids (did durl : String) (pieces : List String) :
    ∀ acc : List ChunkRec × Nat,
      acc.2 = acc.1.length →
      (∀ i, ∀ hi : i < acc.1.length,
        (acc.1.get ⟨i, hi⟩).chunk_id = did ++ "_chunk_" ++ toString i) →
      (pieces.foldl (addChunk did durl) acc).2
          = (pieces.foldl (addChunk did durl) acc).1.length ∧
      ∀ i, ∀ hi : i < (pieces.foldl (addChunk did durl) acc).1.length,
        ((pieces.foldl (addChunk did durl) acc).1.get ⟨i, hi⟩).chunk_id
          = did ++ "_chunk_" ++ toString i := by
  induction pieces with
  | nil => intro acc h1 h2; exact ⟨h1, h2⟩
  | cons p ps ih =>
    intro acc h1 h2
    rw [List.foldl_cons]
    by_cases hct : pyStrip p = ""
    · have : addChunk did durl acc p = acc := by simp [addChunk, hct]
      rw [this]
      exact ih acc h1 h2
    · have hstep : addChunk did durl acc p
          = (acc.1 ++ [mkChunk did durl acc.2 (pyStrip p)], acc.2 + 1) := by
        simp [addChunk, hct]
      rw [hstep]
      refine ih _ (by simp [h1]) ?_
      intro i hi
      simp only [List.length_append, List.length_cons, List.length_nil] at hi
      rcases Nat.lt_or_ge i acc.1.length with hlt | hge
      · rw [List.get_append _ hlt]
        exact h2 i hlt
      · have hieq : i = acc.1.length := by omega
        subst hieq
        have : (acc.1 ++ [mkChunk did durl acc.2 (pyStrip p)]).get ⟨acc.1.length, by simp⟩
            = mkChunk did durl acc.2 (pyStrip p) := by
          simp [List.get_append_right]
        rw [this, h1, mkChunk]

/-- C5 (amended): a document with empty or missing text chunks to the empty
list; a document whose text has no recognized legal-structure marker and whose
*stripped* text is non-empty produces exactly one chunk holding the whole
stripped text under sequence number 0; and every produced chunk carries
`chunk_id = "<doc_id>_chunk_<sequence>"` with sequence numbers assigned in
encounter order starting at 0.  (The claim as stated — one chunk for *every*
marker-free text — fails on whitespace-only text, whose single stripped piece is
discarded; see the counterexample.) -/
theorem process_document_spec :
    (∀ data : DocRec, data.texto_limpio.getD "" = "" → process_document data = []) ∧
    (∀ data : DocRec, ∀ text : String, data.texto_limpio = some text →
      findBoundary text.data = none → pyStrip text ≠ "" →
      process_document data
        = [mkChunk (data.id.getD "unknown") (data.url.getD "") 0 (pyStrip text)]) ∧
    (∀ data : DocRec, ∀ i, ∀ hi : i < (process_document data).length,
      ((process_document data).get ⟨i, hi⟩).chunk_id
        = (data.id.getD "unknown") ++ "_chunk_" ++ toString i) := by
  refine ⟨?_, ?_, ?_⟩
  · intro data h
    simp [process_document, h]
  · intro data text hsome hb hne
    have htext : data.texto_limpio.getD "" = text := by rw [hsome]; rfl
    have htne : text ≠ "" := by
      intro hcon
      exact hne (by rw [hcon]; rfl)
    simp only [process_document, htext, if_neg htne, legalBoundarySplit_of_none text hb,
      List.foldl_cons, List.foldl_nil]
    simp [addChunk, hne]
  · intro data i hi
    revert hi
    simp only [process_document]
    by_cases h0 : data.texto_limpio.getD "" = ""
    · simp [h0]
    · rw [if_neg h0]
      intro hi
      exact (addChunk_fold_ids (data.id.getD "unknown") (data.url.getD "")
        (legalBoundarySplit (data.texto_limpio.getD "")) ([], 0) rfl (by intro i hi; cases hi)).2
        i hi

/-- C5 counterexample: `" "` is non-empty and contains no recognized marker, yet
`process_document` yields no chunk at all (the claim demands exactly one). -/
theorem process_document_counterexample :
    (" " : String) ≠ "" ∧ findBoundary (" " : String).data = none ∧
    process_document ⟨some "d", some "u", some " "⟩ = [] := by
  decide

/-- Witness for the amended C5 theorem: its hypotheses hold at `""`, `"Hello"`
and the two-chunk input of the example, and the conclusions evaluate. -/
theorem process_document_spec_witness :
    process_document ⟨some "d", some "u", some ""⟩ = [] ∧
    process_document ⟨some "d", some "u", some "Hello"⟩ = [mkChunk "d" "u" 0 "Hello"] ∧
    ((process_document ⟨some "doc1", some "u", some "Intro.\nArtículo 1. Foo."⟩).get
        ⟨1, by decide⟩).chunk_id = "doc1" ++ "_chunk_" ++ toString 1 :=
  ⟨process_document_spec.1 ⟨some "d", some "u", some ""⟩ (by decide),
   process_document_spec.2.1 ⟨some "d", some "u", some "Hello"⟩ "Hello" rfl (by decide)
     (by decide),
   process_document_spec.2.2 ⟨some "doc1", some "u", some "Intro.\nArtículo 1. Foo."⟩ 1
     (by decide)⟩

/-! ## C4 — text extraction -/

theorem findTextoList_append (u : Bool) (l1 l2 : List XNode)
    (h : findTextoList u l1 = none) :
    findTextoList u (l1 ++ l2) = findTextoList u l2 := by
  induction l1 with
  | nil => simp
  | cons n ns ih =>
    rw [List.cons_append]
    rw [findTextoList] at h ⊢
    cases hf : findTexto u n with
    | some r => rw [hf] at h; exact Option.noConfusion h
    | none => rw [hf] at h; exact ih h

/-- C4: text extraction (1) returns exactly the rendering of the first `texto`
element that is a direct child of a `documento` element — in particular, for a
`documento` root whose earlier children contain no such element, the result is
the rendering of its direct `texto` child, whatever follows it (such as an
`analisis` subtree with a nested same-named block, all of whose unique text is
excluded); (2) returns the empty string when no such element exists; and (3)
returns the empty string on any parse failure — it never raises. -/
theorem parse_legal_text_spec :
    (∀ pre tcs rest, findTextoList true pre = none →
      parse_legal_text (.doc (.elem "documento" (pre ++ .elem "texto" tcs :: rest)))
        = renderTexto (.elem "texto" tcs)) ∧
    (∀ root, findTexto false root = none → parse_legal_text (.doc root) = "") ∧
    parse_legal_text .malformed = "" := by
  refine ⟨?_, ?_, rfl⟩
  · intro pre tcs rest h
    have hsel : findTexto false (.elem "documento" (pre ++ .elem "texto" tcs :: rest))
        = some (.elem "texto" tcs) := by
      rw [findTexto]
      rw [if_neg (by simp)]
      rw [findTextoList_append _ _ _ (by simpa using h)]
      rw [findTextoList, findTexto]
      rw [if_pos (by simp)]
    simp [parse_legal_text, hsel]
  · intro root h
    simp [parse_legal_text, h]

/-- Witness for the C4 theorem: a `documento` with a direct `texto` child and an
`analisis` subtree holding a nested `texto`; extraction returns only the primary
block's paragraph text, excluding the citation text. -/
theorem parse_legal_text_spec_witness :
    parse_legal_text (.doc (.elem "documento"
        ([] ++ .elem "texto" [.elem "p" [.text " Texto principal. "]]
          :: [.elem "analisis" [.elem "texto" [.elem "p" [.text "Texto de cita."]]]])))
      = "Texto principal." :=
  (parse_legal_text_spec.1 [] [.elem "p" [.text " Texto principal. "]]
      [.elem "analisis" [.elem "texto" [.elem "p" [.text "Texto de cita."]]]] rfl).trans
    (by decide)

/-! ## C3 (amended) — what the summary counts -/

theorem processDoc_runCount (src : Source) (dateStr : String) (p : IngestState × Nat)
    (docId : String) :
    runCount (processDoc src dateStr p docId).1 + p.2
        = runCount p.1 + (processDoc src dateStr p docId).2 ∧
      (processDoc src dateStr p docId).1.total = p.1.total := by
  by_cases hmem : docId ∈ p.1.existing
  · simp [processDoc, hmem]
  · rcases hx : src.fetchXml docId with _ | xml
    · simp [processDoc, hmem, hx, runCount]; omega
    · by_cases hxe : xml = ""
      · simp [processDoc, hmem, hx, hxe, runCount]; omega
      · by_cases ht : src.parse xml = ""
        · simp [processDoc, hmem, hx, hxe, ht, runCount]; omega
        · simp [processDoc, hmem, hx, hxe, ht, runCount]; omega

theorem foldl_processDoc_runCount (src : Source) (dateStr : String) (ids : List String) :
    ∀ p : IngestState × Nat,
      runCount (ids.foldl (processDoc src dateStr) p).1 + p.2
          = runCount p.1 + (ids.foldl (processDoc src dateStr) p).2 ∧
        (ids.foldl (processDoc src dateStr) p).1.total = p.1.total := by
  induction ids with
  | nil => intro p; exact ⟨rfl, rfl⟩
  | cons i is ih =>
    intro p
    rw [List.foldl_cons]
    obtain ⟨h1, h2⟩ := processDoc_runCount src dateStr p i
    obtain ⟨h3, h4⟩ := ih (processDoc src dateStr p i)
    exact ⟨by omega, by rw [h4, h2]⟩

theorem processDay_runCount (src : Source) (st : IngestState) (dateStr : String)
    (h : st.total = runCount st) :
    (processDay src st dateStr).total = runCount (processDay src st dateStr) := by
  rw [processDay]
  rcases hids : src.fetchIds dateStr with _ | ⟨i, is⟩
  · simpa [runCount] using h
  · rw [if_neg (by simp)]
    obtain ⟨h1, h2⟩ := foldl_processDoc_runCount src dateStr (i :: is)
      ({ st with fetchedDates := st.fetchedDates ++ [dateStr] }, 0)
    simp only [runCount] at h h1 h2 ⊢
    simp only [h2]
    omega

theorem foldl_processDay_runCount (src : Source) (dates : List String) :
    ∀ st : IngestState, st.total = runCount st →
      (dates.foldl (processDay src) st).total = runCount (dates.foldl (processDay src) st) := by
  induction dates with
  | nil => intro st h; exact h
  | cons d ds ih =>
    intro st h
    rw [List.foldl_cons]
    exact ih _ (processDay_runCount src st d h)

/-- C3 (amended): the run always terminates in a state from which the `finally`
block's summary is read (`ingestSummary`), and the "total newly processed this
run" figure equals the number of identifiers that passed the cache check —
persisted documents *plus* those skipped for absent content *plus* those skipped
for empty extraction.  (The claim's reading that skipped documents are not
counted is refuted by the counterexample: the counter is incremented before the
content fetch.) -/
theorem ingest_summary_counts (src : Source) (cacheFile : Option (List String))
    (s e : String) :
    (ingestSummary (ingest_boe_data src cacheFile s e)).1
      = (ingest_boe_data src cacheFile s e).raw.length
        + (ingest_boe_data src cacheFile s e).skipNoContent
        + (ingest_boe_data src cacheFile s e).skipEmptyText := by
  rw [ingest_boe_data]
  rcases hs : strptimeYmd s with _ | ds
  · rfl
  · rcases he : strptimeYmd e with _ | de
    · rfl
    · exact foldl_processDay_runCount src _ (initState (load_processed_ids cacheFile)) rfl

/-! ## C2 — retrieval failure semantics -/

/-- C2 counterexample: the similarity-search dependency raises, the service
degrades instead of raising — but the generation stream legitimately yields no
fragments and raises nothing, so the returned stream is *empty*, refuting "the
returned stream is still non-empty". -/
theorem chat_stream_counterexample :
    (∃ v, emptyGenDeps.encode "q" = .ok v ∧ emptyGenDeps.search v 5 = .error "db down") ∧
    chat_stream emptyGenDeps "q" [] "free" = [] :=
  ⟨⟨(), rfl, rfl⟩, rfl⟩

/-- C2 (amended): no dependency failure escapes `chat_stream` as an exception;
a similarity-search failure is replaced by the placeholder context and
generation still runs; if the generation call raises (before or during
streaming) the stream is the fragments already produced followed by exactly one
final human-readable error fragment — in particular it is non-empty — and then
ends; if generation does not raise, the stream is exactly the non-empty
fragments it produced (which may be the empty stream, per the counterexample). -/
theorem chat_stream_failure_semantics {Vec : Type} (deps : RagDeps Vec) (q : String)
    (hist : List ChatMsg) (tier : String) :
    (∀ v err, deps.encode q = .ok v → deps.search v 5 = .error err →
      (get_context deps q 5).1 = placeholderContext) ∧
    (∀ e, (deps.generate (messagesPayload (get_context deps q 5).1 q hist)).2 = some e →
      chat_stream deps q hist tier
          = streamBody (deps.generate (messagesPayload (get_context deps q 5).1 q hist)).1
            ++ [sysErrorFragment e]
        ∧ chat_stream deps q hist tier ≠ []) ∧
    ((deps.generate (messagesPayload (get_context deps q 5).1 q hist)).2 = none →
      chat_stream deps q hist tier
        = streamBody (deps.generate (messagesPayload (get_context deps q 5).1 q hist)).1) := by
  refine ⟨?_, ?_, ?_⟩
  · intro v err h1 h2
    simp [get_context, h1, h2]
  · intro e hg
    constructor
    · simp only [chat_stream, hg]
    · simp only [chat_stream, hg]
      simp
  · intro hg
    simp only [chat_stream, hg]

/-- Witness for the amended C2 theorem at concrete failing dependencies. -/
theorem chat_stream_failure_semantics_witness :
    (get_context failingGenDeps "q" 5).1 = placeholderContext ∧
    chat_stream failingGenDeps "q" [] "free"
        = streamBody [some "Hola", none, some ""] ++ [sysErrorFragment "boom"] ∧
    chat_stream failingGenDeps "q" [] "free" ≠ [] :=
  ⟨(chat_stream_failure_semantics failingGenDeps "q" [] "free").1 () "down" rfl rfl,
   ((chat_stream_failure_semantics failingGenDeps "q" [] "free").2.1 "boom" rfl).1,
   ((chat_stream_failure_semantics failingGenDeps "q" [] "free").2.1 "boom" rfl).2⟩

/-! ## C1 — idempotence of ingestion -/

theorem load_processed_ids_append (a b : List String) :
    load_processed_ids (some (a ++ b))
      = load_processed_ids (some a) ∪ load_processed_ids (some b) := by
  simp [load_processed_ids, List.filter_append, List.map_append, List.toFinset_append]

theorem processDoc_cached (src : Source) (dateStr : String) (p : IngestState × Nat)
    (docId : String) (h : docId ∈ p.1.existing) :
    processDoc src dateStr p docId = p := by
  rw [processDoc, if_pos h]

theorem processDoc_skip_none (src : Source) (dateStr : String) (p : IngestState × Nat)
    (docId : String) (h : docId ∉ p.1.existing) (hx : src.fetchXml docId = none) :
    processDoc src dateStr p docId
      = ({ p.1 with
            fetchedDocs := p.1.fetchedDocs ++ [docId]
            skipNoContent := p.1.skipNoContent + 1 }, p.2 + 1) := by
  rw [processDoc, if_neg h]
  simp only [hx]

theorem processDoc_skip_empty (src : Source) (dateStr : String) (p : IngestState × Nat)
    (docId : String) (xml : String) (h : docId ∉ p.1.existing)
    (hx : src.fetchXml docId = some xml) (hxe : xml = "") :
    processDoc src dateStr p docId
      = ({ p.1 with
            fetchedDocs := p.1.fetchedDocs ++ [docId]
            skipNoContent := p.1.skipNoContent + 1 }, p.2 + 1) := by
  rw [processDoc, if_neg h]
  simp only [hx, if_pos hxe]

theorem processDoc_skip_parse (src : Source) (dateStr : String) (p : IngestState × Nat)
    (docId : String) (xml : String) (h : docId ∉ p.1.existing)
    (hx : src.fetchXml docId = some xml) (hxe : xml ≠ "") (ht : src.parse xml = "") :
    processDoc src dateStr p docId
      = ({ p.1 with
            fetchedDocs := p.1.fetchedDocs ++ [docId]
            skipEmptyText := p.1.skipEmptyText + 1 }, p.2 + 1) := by
  rw [processDoc, if_neg h]
  simp only [hx, if_neg hxe, if_pos ht]

theorem processDoc_persist (src : Source) (dateStr : String) (p : IngestState × Nat)
    (docId : String) (xml : String) (h : docId ∉ p.1.existing)
    (hx : src.fetchXml docId = some xml) (hxe : xml ≠ "") (ht : src.parse xml ≠ "") :
    processDoc src dateStr p docId
      = ({ p.1 with
            fetchedDocs := p.1.fetchedDocs ++ [docId]
            raw := p.1.raw ++ [⟨docId, dateStr, boeUrl docId, src.parse xml⟩]
            cacheApp := p.1.cacheApp ++ [docId]
            existing := insert docId p.1.existing }, p.2 + 1) := by
  rw [processDoc, if_neg h]
  simp only [hx, if_neg hxe, if_neg ht]

theorem processDoc_fresh (src : Source) (dateStr : String) (m0 : Finset String)
    (p : IngestState × Nat) (docId : String) (h : FreshAppends m0 p.1) :
    FreshAppends m0 (processDoc src dateStr p docId).1 := by
  obtain ⟨h1, h2, h3⟩ := h
  by_cases hmem : docId ∈ p.1.existing
  · rw [processDoc_cached src dateStr p docId hmem]
    exact ⟨h1, h2, h3⟩
  · have hdocId : docId ∉ m0 := fun hc => hmem (h1 hc)
    rcases hx : src.fetchXml docId with _ | xml
    · rw [processDoc_skip_none src dateStr p docId hmem hx]
      exact ⟨h1, h2, h3⟩
    · by_cases hxe : xml = ""
      · rw [processDoc_skip_empty src dateStr p docId xml hmem hx hxe]
        exact ⟨h1, h2, h3⟩
      · by_cases ht : src.parse xml = ""
        · rw [processDoc_skip_parse src dateStr p docId xml hmem hx hxe ht]
          exact ⟨h1, h2, h3⟩
        · rw [processDoc_persist src dateStr p docId xml hmem hx hxe ht]
          refine ⟨h1.trans (Finset.subset_insert _ _), ?_, ?_⟩
          · intro d hd
            rcases List.mem_append.mp hd with hd | hd
            · exact h2 d hd
            · rcases List.mem_singleton.mp hd with rfl
              exact hdocId
          · intro i hi
            rcases List.mem_append.mp hi with hi | hi
            · exact h3 i hi
            · rcases List.mem_singleton.mp hi with rfl
              exact hdocId

theorem foldl_processDoc_fresh (src : Source) (dateStr : String) (m0 : Finset String)
    (ids : List String) :
    ∀ p : IngestState × Nat, FreshAppends m0 p.1 →
      FreshAppends m0 (ids.foldl (processDoc src dateStr) p).1 := by
  induction ids with
  | nil => intro p h; exact h
  | cons i is ih =>
    intro p h
    rw [List.foldl_cons]
    exact ih _ (processDoc_fresh src dateStr m0 p i h)

theorem processDay_fresh (src : Source) (m0 : Finset String) (st : IngestState)
    (dateStr : String) (h : FreshAppends m0 st) :
    FreshAppends m0 (processDay src st dateStr) := by
  rw [processDay]
  have h' : FreshAppends m0 { st with fetchedDates := st.fetchedDates ++ [dateStr] } := h
  rcases hids : src.fetchIds dateStr with _ | ⟨i, is⟩
  · exact h'
  · rw [if_neg (by simp)]
    exact foldl_processDoc_fresh src dateStr m0 (i :: is) _ h'

theorem foldl_processDay_fresh (src : Source) (m0 : Finset String) (dates : List String) :
    ∀ st : IngestState, FreshAppends m0 st →
      FreshAppends m0 (dates.foldl (processDay src) st) := by
  induction dates with
  | nil => intro st h; exact h
  | cons d ds ih =>
    intro st h
    rw [List.foldl_cons]
    exact ih _ (processDay_fresh src m0 st d h)

theorem ingest_fresh (src : Source) (cacheFile : Option (List String)) (s e : String) :
    FreshAppends (load_processed_ids cacheFile) (ingest_boe_data src cacheFile s e) := by
  have hinit : FreshAppends (load_processed_ids cacheFile)
      (initState (load_processed_ids cacheFile)) :=
    ⟨Finset.Subset.refl _, by simp [initState], by simp [initState]⟩
  rw [ingest_boe_data]
  rcases hs : strptimeYmd s with _ | ds
  · exact hinit
  · rcases he : strptimeYmd e with _ | de
    · exact hinit
    · exact foldl_processDay_fresh src _ _ _ hinit

theorem processDoc_weaker (src : Source) (dateStr : String) (p1 p2 : IngestState × Nat)
    (docId : String) (h : Weaker p1.1 p2.1) :
    Weaker (processDoc src dateStr p1 docId).1 (processDoc src dateStr p2 docId).1 := by
  obtain ⟨h1, h2, h3⟩ := h
  by_cases hm2 : docId ∈ p2.1.existing
  · rw [processDoc_cached src dateStr p2 docId hm2]
    by_cases hm1 : docId ∈ p1.1.existing
    · rw [processDoc_cached src dateStr p1 docId hm1]
      exact ⟨h1, h2, h3⟩
    · rcases hx : src.fetchXml docId with _ | xml
      · rw [processDoc_skip_none src dateStr p1 docId hm1 hx]
        exact ⟨h1, h2, h3⟩
      · by_cases hxe : xml = ""
        · rw [processDoc_skip_empty src dateStr p1 docId xml hm1 hx hxe]
          exact ⟨h1, h2, h3⟩
        · by_cases ht : src.parse xml = ""
          · rw [processDoc_skip_parse src dateStr p1 docId xml hm1 hx hxe ht]
            exact ⟨h1, h2, h3⟩
          · rw [processDoc_persist src dateStr p1 docId xml hm1 hx hxe ht]
            refine ⟨Finset.insert_subset hm2 h1, ?_, ?_⟩
            · refine h2.trans ?_
              rw [List.toFinset_append]
              exact Finset.subset_union_left
            · refine h3.trans ?_
              rw [List.toFinset_append]
              exact Finset.subset_union_left
  · have hm1 : docId ∉ p1.1.existing := fun hc => hm2 (h1 hc)
    rcases hx : src.fetchXml docId with _ | xml
    · rw [processDoc_skip_none src dateStr p1 docId hm1 hx,
        processDoc_skip_none src dateStr p2 docId hm2 hx]
      exact ⟨h1, h2, h3⟩
    · by_cases hxe : xml = ""
      · rw [processDoc_skip_empty src dateStr p1 docId xml hm1 hx hxe,
          processDoc_skip_empty src dateStr p2 docId xml hm2 hx hxe]
        exact ⟨h1, h2, h3⟩
      · by_cases ht : src.parse xml = ""
        · rw [processDoc_skip_parse src dateStr p1 docId xml hm1 hx hxe ht,
            processDoc_skip_parse src dateStr p2 docId xml hm2 hx hxe ht]
          exact ⟨h1, h2, h3⟩
        · rw [processDoc_persist src dateStr p1 docId xml hm1 hx hxe ht,
            processDoc_persist src dateStr p2 docId xml hm2 hx hxe ht]
          refine ⟨Finset.insert_subset_insert _ h1, ?_, ?_⟩
          · rw [List.toFinset_append, List.toFinset_append]
            exact Finset.union_subset_union h2 (Finset.Subset.refl _)
          · rw [List.toFinset_append, List.toFinset_append]
            exact Finset.union_subset_union h3 (Finset.Subset.refl _)

theorem foldl_processDoc_weaker (src : Source) (dateStr : String) (ids : List String) :
    ∀ p1 p2 : IngestState × Nat, Weaker p1.1 p2.1 →
      Weaker (ids.foldl (processDoc src dateStr) p1).1 (ids.foldl (processDoc src dateStr) p2).1 := by
  induction ids with
  | nil => intro p1 p2 h; exact h
  | cons i is ih =>
    intro p1 p2 h
    rw [List.foldl_cons, List.foldl_cons]
    exact ih _ _ (processDoc_weaker src dateStr p1 p2 i h)

theorem processDay_weaker (src : Source) (st1 st2 : IngestState) (dateStr : String)
    (h : Weaker st1 st2) :
    Weaker (processDay src st1 dateStr) (processDay src st2 dateStr) := by
  rw [processDay, processDay]
  have h' : Weaker { st1 with fetchedDates := st1.fetchedDates ++ [dateStr] }
      { st2 with fetchedDates := st2.fetchedDates ++ [dateStr] } := h
  rcases hids : src.fetchIds dateStr with _ | ⟨i, is⟩
  · exact h'
  · rw [if_neg (by simp), if_neg (by simp)]
    exact foldl_processDoc_weaker src dateStr (i :: is) _ _ h'

theorem foldl_processDay_weaker (src : Source) (dates : List String) :
    ∀ st1 st2 : IngestState, Weaker st1 st2 →
      Weaker (dates.foldl (processDay src) st1) (dates.foldl (processDay src) st2) := by
  induction dates with
  | nil => intro st1 st2 h; exact h
  | cons d ds ih =>
    intro st1 st2 h
    rw [List.foldl_cons, List.foldl_cons]
    exact ih _ _ (processDay_weaker src st1 st2 d h)

theorem ingest_weaker (src : Source) (f1 f2 : Option (List String)) (s e : String)
    (h : load_processed_ids f1 ⊆ load_processed_ids f2) :
    Weaker (ingest_boe_data src f1 s e) (ingest_boe_data src f2 s e) := by
  have hinit : Weaker (initState (load_processed_ids f1)) (initState (load_processed_ids f2)) :=
    ⟨h, by simp [initState], by simp [initState]⟩
  rw [ingest_boe_data, ingest_boe_data]
  rcases hs : strptimeYmd s with _ | ds
  · exact hinit
  · rcases he : strptimeYmd e with _ | de
    · exact hinit
    · exact foldl_processDay_weaker src _ _ _ hinit

/-- C1: idempotence of ingestion.  First run `r1` over any date range from cache
file `file0`; (i) no `RawDocument` is persisted for an identifier already in the
loaded `ProcessedIdSet`, and (ii) no cache line is appended for one.  Then run
the orchestrator a second time (`r2`) over the same range against the updated
cache file, with the external source returning the same data: (iii) the final
raw-store record set and (iv) the final cache line set are exactly those after
the single run — the second run adds nothing. -/
theorem ingest_idempotent (src : Source) (file0 : List String) (rawStore0 : List RawDoc)
    (s e : String) :
    let r1 := ingest_boe_data src (some file0) s e
    let file1 := file0 ++ r1.cacheApp
    let r2 := ingest_boe_data src (some file1) s e
    ((r1.raw.map RawDoc.id).toFinset ∩ load_processed_ids (some file0) = ∅) ∧
    (r1.cacheApp.toFinset ∩ load_processed_ids (some file0) = ∅) ∧
    ((rawStore0 ++ r1.raw ++ r2.raw).toFinset = (rawStore0 ++ r1.raw).toFinset) ∧
    ((file1 ++ r2.cacheApp).toFinset = file1.toFinset) := by
  intro r1 file1 r2
  obtain ⟨hsub, hraw, hcache⟩ := ingest_fresh src (some file0) s e
  have hweak : Weaker r1 r2 :=
    ingest_weaker src (some file0) (some file1) s e
      (by rw [load_processed_ids_append]; exact Finset.subset_union_left)
  refine ⟨?_, ?_, ?_, ?_⟩
  · rw [Finset.eq_empty_iff_forall_not_mem]
    intro x hx
    rw [Finset.mem_inter, List.mem_toFinset, List.mem_map] at hx
    obtain ⟨⟨d, hd, hdx⟩, hxm⟩ := hx
    exact hraw d hd (hdx ▸ hxm)
  · rw [Finset.eq_empty_iff_forall_not_mem]
    intro x hx
    rw [Finset.mem_inter, List.mem_toFinset] at hx
    exact hcache x hx.1 hx.2
  · have hsub2 : r2.raw.toFinset ⊆ (rawStore0 ++ r1.raw).toFinset := by
      refine hweak.2.1.trans ?_
      rw [List.toFinset_append]
      exact Finset.subset_union_right
    rw [List.toFinset_append, Finset.union_eq_left.mpr hsub2]
  · have hf1 : file1 = file0 ++ r1.cacheApp := rfl
    have hsub2 : r2.cacheApp.toFinset ⊆ file1.toFinset := by
      refine hweak.2.2.trans ?_
      rw [hf1, List.toFinset_append]
      exact Finset.subset_union_right
    rw [List.toFinset_append, Finset.union_eq_left.mpr hsub2]

/-! ## C8 — item-shape normalization -/

theorem optionMapM_congr_mid {α β : Type} (f : α → Option β) (l1 l2 : List α) (a b : α)
    (h : f a = f b) : (l1 ++ a :: l2).mapM f = (l1 ++ b :: l2).mapM f := by
  induction l1 with
  | nil => simp only [List.nil_append, List.mapM_cons, h]
  | cons x xs ih => simp only [List.cons_append, List.mapM_cons, ih]

theorem processEpigrafe_item_obj (o : List (String × Json)) (eRest : List (String × Json)) :
    processEpigrafe (epigrafeWith (.obj o) eRest)
      = processEpigrafe (epigrafeWith (.arr [.obj o]) eRest) := by
  cases o with
  | nil =>
    simp [processEpigrafe, epigrafeWith, jGetD, jLookup, truthy, itemsToProcess, processItem]
  | cons q o' =>
    simp [processEpigrafe, epigrafeWith, jGetD, jLookup, truthy, itemsToProcess, processItem]

theorem processDepartamento_departamentoWith (epis : List Json) (dpRest : List (String × Json)) :
    processDepartamento (departamentoWith epis dpRest)
      = some (epis.flatMap processEpigrafe) := by
  simp [processDepartamento, departamentoWith, jGetD, jLookup, pyIter]

theorem processSeccion_seccionWith (codigo : Json) (deps : List Json)
    (sRest : List (String × Json)) :
    processSeccion (seccionWith codigo deps sRest)
      = if allowedCodigo codigo
          then (deps.mapM processDepartamento).map (fun ls => ls.flatten)
          else some [] := by
  by_cases hc : allowedCodigo codigo <;>
    simp [processSeccion, seccionWith, jGetD, jLookup, pyIter, hc]

theorem processDiario_diarioWith (secs : List Json) (dRest : List (String × Json)) :
    processDiario (diarioWith secs dRest)
      = (secs.mapM processSeccion).map (fun ls => ls.flatten) := by
  simp [processDiario, diarioWith, jGetD, jLookup, pyIter]

theorem fetch_summary_ids_manifestWith (diarios : List Json)
    (sumRest dataRest rootRest : List (String × Json)) :
    fetch_summary_ids (manifestWith diarios sumRest dataRest rootRest)
      = (diarios.mapM processDiario).bind
          (fun ls => if ls.flatten.all hashable then some ls.flatten.dedup else none) := by
  rfl

/-- C8: manifest item-shape normalization is an equivalence — for every manifest
in which an epigrafe's `item` field is a single object, `fetch_summary_ids`
returns exactly the same identifier list as for the otherwise-identical manifest
whose `item` field is the one-element list containing that object.  The
surrounding manifest is arbitrary: sibling diarios/secciones/departamentos/
epigrafes (`ds1/ds2/ss1/ss2/dp1/dp2/es1/es2`, of any shape, including malformed
nodes), any further fields at each nesting level, and any `codigo` value. -/
theorem fetch_summary_ids_item_norm (o : List (String × Json))
    (eRest dpRest sRest dRest sumRest dataRest rootRest : List (String × Json))
    (es1 es2 dp1 dp2 ss1 ss2 ds1 ds2 : List Json) (codigo : Json) :
    fetch_summary_ids (manifestWith
        (ds1 ++ diarioWith
          (ss1 ++ seccionWith codigo
            (dp1 ++ departamentoWith
              (es1 ++ epigrafeWith (.obj o) eRest :: es2) dpRest :: dp2) sRest :: ss2)
          dRest :: ds2)
        sumRest dataRest rootRest)
      = fetch_summary_ids (manifestWith
          (ds1 ++ diarioWith
            (ss1 ++ seccionWith codigo
              (dp1 ++ departamentoWith
                (es1 ++ epigrafeWith (.arr [.obj o]) eRest :: es2) dpRest :: dp2) sRest :: ss2)
            dRest :: ds2)
          sumRest dataRest rootRest) := by
  have he : processEpigrafe (epigrafeWith (.obj o) eRest)
      = processEpigrafe (epigrafeWith (.arr [.obj o]) eRest) :=
    processEpigrafe_item_obj o eRest
  have hd : processDepartamento (departamentoWith
        (es1 ++ epigrafeWith (.obj o) eRest :: es2) dpRest)
      = processDepartamento (departamentoWith
        (es1 ++ epigrafeWith (.arr [.obj o]) eRest :: es2) dpRest) := by
    rw [processDepartamento_departamentoWith, processDepartamento_departamentoWith,
      List.flatMap_append, List.flatMap_append, List.flatMap_cons, List.flatMap_cons, he]
  have hs : processSeccion (seccionWith codigo
        (dp1 ++ departamentoWith (es1 ++ epigrafeWith (.obj o) eRest :: es2) dpRest :: dp2) sRest)
      = processSeccion (seccionWith codigo
        (dp1 ++ departamentoWith (es1 ++ epigrafeWith (.arr [.obj o]) eRest :: es2) dpRest :: dp2)
        sRest) := by
    rw [processSeccion_seccionWith, processSeccion_seccionWith,
      optionMapM_congr_mid _ _ _ _ _ hd]
  have hdi : processDiario (diarioWith
        (ss1 ++ seccionWith codigo
          (dp1 ++ departamentoWith (es1 ++ epigrafeWith (.obj o) eRest :: es2) dpRest :: dp2)
          sRest :: ss2) dRest)
      = processDiario (diarioWith
        (ss1 ++ seccionWith codigo
          (dp1 ++ departamentoWith (es1 ++ epigrafeWith (.arr [.obj o]) eRest :: es2) dpRest :: dp2)
          sRest :: ss2) dRest) := by
    rw [processDiario_diarioWith, processDiario_diarioWith,
      optionMapM_congr_mid _ _ _ _ _ hs]
  rw [fetch_summary_ids_manifestWith, fetch_summary_ids_manifestWith,
    optionMapM_congr_mid _ _ _ _ _ hdi]

/-! ## C9 — returned identifiers: dedup and provenance -/

theorem mapM_mem_inv {α β : Type} (f : α → Option β) :
    ∀ (l : List α) (out : List β), l.mapM f = some out → ∀ y ∈ out, ∃ x ∈ l, f x = some y := by
  intro l
  induction l with
  | nil =>
    intro out h y hy
    rw [List.mapM_nil] at h
    injection h with h
    subst h
    cases hy
  | cons a as ih =>
    intro out h y hy
    rw [List.mapM_cons] at h
    rcases hfa : f a with _ | b
    · rw [hfa] at h; simp at h
    · rw [hfa] at h
      rcases hbs : as.mapM f with _ | bs
      · rw [hbs] at h; simp at h
      · rw [hbs] at h
        simp only [Option.pure_def, Option.bind_some, Option.some_bind] at h
        injection h with h
        subst h
        rcases List.mem_cons.mp hy with rfl | hy
        · exact ⟨a, List.mem_cons_self a as, hfa⟩
        · obtain ⟨x, hx, hfx⟩ := ih bs hbs y hy
          exact ⟨x, List.mem_cons_of_mem a hx, hfx⟩

theorem processItem_inv (it id : Json) (hm : id ∈ processItem it) :
    ∃ itF, it = .obj itF ∧ KeptItem itF id := by
  cases it with
  | obj itF =>
    rw [processItem] at hm
    by_cases hc : truthy (jGetD itF "identificador" .null) = true
        ∧ truthy (jGetD itF "url_xml" .null) = true
    · rw [if_pos hc] at hm
      rcases List.mem_singleton.mp hm with rfl
      exact ⟨itF, rfl, hc.1, hc.2, rfl⟩
    · rw [if_neg hc] at hm
      cases hm
  | null => cases hm
  | bool b => cases hm
  | num n => cases hm
  | str s => cases hm
  | arr l => cases hm

theorem processEpigrafe_inv (e id : Json) (hm : id ∈ processEpigrafe e) :
    ∃ eF, e = .obj eF ∧ truthy (jGetD eF "item" .null) = true ∧
      ∃ itF, Json.obj itF ∈ itemsToProcess (jGetD eF "item" .null) ∧ KeptItem itF id := by
  cases e with
  | obj eF =>
    rw [processEpigrafe] at hm
    by_cases htr : truthy (jGetD eF "item" .null) = true
    · rw [if_pos htr] at hm
      obtain ⟨it, hit, hid⟩ := List.mem_flatMap.mp hm
      obtain ⟨itF, rfl, hk⟩ := processItem_inv it id hid
      exact ⟨eF, rfl, htr, itF, hit, hk⟩
    · rw [if_neg htr] at hm
      cases hm
  | null => cases hm
  | bool b => cases hm
  | num n => cases hm
  | str s => cases hm
  | arr l => cases hm

theorem processDepartamento_inv (dp : Json) (out : List Json) (id : Json)
    (h : processDepartamento dp = some out) (hm : id ∈ out) :
    ∃ dpF epis, dp = .obj dpF ∧ pyIter (jGetD dpF "epigrafe" (.arr [])) = some epis ∧
      ∃ e ∈ epis, id ∈ processEpigrafe e := by
  cases dp with
  | obj dpF =>
    rw [processDepartamento] at h
    obtain ⟨epis, hp, hout⟩ := Option.map_eq_some'.mp h
    subst hout
    obtain ⟨e, he, hid⟩ := List.mem_flatMap.mp hm
    exact ⟨dpF, epis, rfl, hp, e, he, hid⟩
  | null => injection h with h; subst h; cases hm
  | bool b => injection h with h; subst h; cases hm
  | num n => injection h with h; subst h; cases hm
  | str s => injection h with h; subst h; cases hm
  | arr l => injection h with h; subst h; cases hm

theorem processSeccion_inv (s : Json) (out : List Json) (id : Json)
    (h : processSeccion s = some out) (hm : id ∈ out) :
    ∃ sF deps, s = .obj sF ∧ allowedCodigo (jGetD sF "codigo" .null) = true ∧
      pyIter (jGetD sF "departamento" (.arr [])) = some deps ∧
      ∃ dp ∈ deps, ∃ l, processDepartamento dp = some l ∧ id ∈ l := by
  cases s with
  | obj sF =>
    rw [processSeccion] at h
    by_cases hc : allowedCodigo (jGetD sF "codigo" .null) = true
    · rw [if_pos hc] at h
      rcases hp : pyIter (jGetD sF "departamento" (.arr [])) with _ | deps
      · rw [hp] at h; cases h
      rw [hp] at h
      obtain ⟨ls, hmm, hout⟩ := Option.map_eq_some'.mp h
      subst hout
      obtain ⟨l, hl, hid⟩ := List.mem_flatten.mp hm
      obtain ⟨dp, hdp, hpd⟩ := mapM_mem_inv processDepartamento deps ls hmm l hl
      exact ⟨sF, deps, rfl, hc, hp, dp, hdp, l, hpd, hid⟩
    · rw [if_neg hc] at h
      injection h with h
      subst h
      cases hm
  | null => injection h with h; subst h; cases hm
  | bool b => injection h with h; subst h; cases hm
  | num n => injection h with h; subst h; cases hm
  | str s => injection h with h; subst h; cases hm
  | arr l => injection h with h; subst h; cases hm

theorem processDiario_inv (d : Json) (out : List Json) (id : Json)
    (h : processDiario d = some out) (hm : id ∈ out) :
    ∃ dF secs, d = .obj dF ∧ pyIter (jGetD dF "seccion" (.arr [])) = some secs ∧
      ∃ s ∈ secs, ∃ l, processSeccion s = some l ∧ id ∈ l := by
  cases d with
  | obj dF =>
    rw [processDiario] at h
    rcases hp : pyIter (jGetD dF "seccion" (.arr [])) with _ | secs
    · rw [hp] at h; cases h
    rw [hp] at h
    obtain ⟨ls, hmm, hout⟩ := Option.map_eq_some'.mp h
    subst hout
    obtain ⟨l, hl, hid⟩ := List.mem_flatten.mp hm
    obtain ⟨s, hs, hps⟩ := mapM_mem_inv processSeccion secs ls hmm l hl
    exact ⟨dF, secs, rfl, hp, s, hs, l, hps, hid⟩
  | null => injection h with h; subst h; cases hm
  | bool b => injection h with h; subst h; cases hm
  | num n => injection h with h; subst h; cases hm
  | str s => injection h with h; subst h; cases hm
  | arr l => injection h with h; subst h; cases hm

theorem fetch_summary_ids_eq_bind (root : Json) :
    fetch_summary_ids root
      = (asObj root).bind (fun rootF =>
          (asObj (jGetD rootF "data" (.obj []))).bind (fun dataF =>
            (asObj (jGetD dataF "sumario" (.obj []))).bind (fun sumF =>
              (pyIter (jGetD sumF "diario" (.arr []))).bind (fun diarios =>
                (diarios.mapM processDiario).bind (fun ls =>
                  if ls.flatten.all hashable then some ls.flatten.dedup else none))))) := rfl

/-- C9: whenever `fetch_summary_ids` returns a list (rather than raising), the
list has no duplicate identifiers, and every identifier in it comes from an item
that has both an `identificador` and a `url_xml` field and lies — through the
diario/seccion/departamento/epigrafe nesting — under a section whose category
code is in the allowed set `{"1", "3"}`; items failing any of these conditions
contribute nothing. -/
theorem fetch_summary_ids_sound (root : Json) (ids : List Json)
    (h : fetch_summary_ids root = some ids) :
    ids.Nodup ∧ ∀ id ∈ ids, FromAllowedSection root id := by
  rw [fetch_summary_ids_eq_bind] at h
  obtain ⟨rootF, h0, h⟩ := (Option.bind_eq_some).mp h
  obtain ⟨dataF, h1, h⟩ := (Option.bind_eq_some).mp h
  obtain ⟨sumF, h2, h⟩ := (Option.bind_eq_some).mp h
  obtain ⟨diarios, h3, h⟩ := (Option.bind_eq_some).mp h
  obtain ⟨ls, hmm, h⟩ := (Option.bind_eq_some).mp h
  by_cases hh : ls.flatten.all hashable = true
  · rw [if_pos hh] at h
    injection h with h
    subst h
    refine ⟨List.nodup_dedup _, ?_⟩
    intro id hid
    have hidfl : id ∈ ls.flatten := List.mem_dedup.mp hid
    obtain ⟨l, hl, hidl⟩ := List.mem_flatten.mp hidfl
    obtain ⟨d, hd, hpd⟩ := mapM_mem_inv processDiario diarios ls hmm l hl
    obtain ⟨dF, secs, rfl, hp1, s, hs, l2, hps, hid2⟩ := processDiario_inv d l id hpd hidl
    obtain ⟨sF, deps, rfl, hcod, hp2, dp, hdp, l3, hpdp, hid3⟩ :=
      processSeccion_inv s l2 id hps hid2
    obtain ⟨dpF, epis, rfl, hp3, e, he, hid4⟩ := processDepartamento_inv dp l3 id hpdp hid3
    obtain ⟨eF, rfl, htr, itF, hit, hk⟩ := processEpigrafe_inv e id hid4
    exact ⟨rootF, dataF, sumF, diarios, dF, secs, sF, deps, dpF, epis, eF, itF,
      h0, h1, h2, h3, hd, hp1, hs, hcod, hp2, hdp, hp3, he, htr, hit, hk⟩
  · rw [if_neg hh] at h
    cases h

/-- Witness for the C9 theorem at a concrete well-formed manifest. -/
theorem fetch_summary_ids_sound_witness :
    fetch_summary_ids oneItemManifest = some [Json.str "BOE-A-2023-1"] ∧
    ([Json.str "BOE-A-2023-1"] : List Json).Nodup ∧
    ∀ id ∈ ([Json.str "BOE-A-2023-1"] : List Json), FromAllowedSection oneItemManifest id :=
  ⟨by decide,
   (fetch_summary_ids_sound oneItemManifest [Json.str "BOE-A-2023-1"] (by decide)).1,
   (fetch_summary_ids_sound oneItemManifest [Json.str "BOE-A-2023-1"] (by decide)).2⟩

end Justiniano
